import Mathlib

/-!
Verification model of the Koa chat application: a Next.js backend route
(`app/api/chat/route.ts`, the retrieval-augmented reply pipeline) and its
chat client (`app/page.tsx`).

Conventions of the embedding:
* JSON documents are modelled by the inductive `Json` below.  Numbers are
  kept as their source lexeme (a `String`): no claim depends on numeric
  semantics and this avoids floating point.
* `JSON.parse` is a JavaScript builtin, not repository code; it is embedded
  here as the executable recursive-descent parser `parseJson` over the JSON
  grammar (whitespace, `null`, booleans, numbers, strings with escapes,
  arrays, objects).  Astral characters given as `\uXXXX` surrogate pairs
  are not recombined; duplicate object keys are all retained in order.
  Neither corner is exercised by any statement below.
* The Pinecone search and the OpenAI completion are external collaborators;
  they enter the model as the function fields of `Api.PipelineEnv`, and a
  thrown exception is an `Except.error`.
* The source file of the backend route is stored double-encoded (UTF-8 read
  as cp1252 and re-encoded), so its string literals contain mojibake such as
  a three-character sequence where the koala emoji was intended.  The string
  constants below use the intended characters; no claim compares these
  constants against the (differently encoded) client strings.
-/

/-- A JSON value.  `num` keeps the numeric lexeme verbatim. -/
inductive Json where
  | null : Json
  | bool : Bool → Json
  | num : String → Json
  | str : String → Json
  | arr : List Json → Json
  | obj : List (String × Json) → Json
deriving Repr

/-- JSON insignificant whitespace. -/
def isJsonWs (c : Char) : Bool :=
  c = ' ' || c = '\n' || c = '\t' || c = '\r'

/-- Drop leading JSON whitespace. -/
def skipWs (cs : List Char) : List Char :=
  cs.dropWhile isJsonWs

/-- Value of a hexadecimal digit, if any (code-point arithmetic). -/
def hexDigitVal (c : Char) : Option Nat :=
  let n := c.toNat
  if 48 ≤ n && n ≤ 57 then some (n - 48)
  else if 97 ≤ n && n ≤ 102 then some (n - 87)
  else if 65 ≤ n && n ≤ 70 then some (n - 55)
  else none

/-- Single-character JSON string escapes. -/
def escChar (c : Char) : Option Char :=
  match c with
  | 'n' => some '\n'
  | 't' => some '\t'
  | 'r' => some '\r'
  | 'b' => some '\x08'
  | 'f' => some '\x0c'
  | '/' => some '/'
  | '\\' => some '\\'
  | '"' => some '"'
  | _ => none

/-- Parse the body of a JSON string after the opening quote, returning the
decoded characters and the remainder after the closing quote. -/
def parseStrChars : List Char → Option (List Char × List Char)
  | [] => none
  | '"' :: tail => some ([], tail)
  | '\\' :: 'u' :: h1 :: h2 :: h3 :: h4 :: tail => do
    let v1 ← hexDigitVal h1
    let v2 ← hexDigitVal h2
    let v3 ← hexDigitVal h3
    let v4 ← hexDigitVal h4
    let (body, rest) ← parseStrChars tail
    some (Char.ofNat (v1 * 4096 + v2 * 256 + v3 * 16 + v4) :: body, rest)
  | '\\' :: e :: tail => do
    let ec ← escChar e
    let (body, rest) ← parseStrChars tail
    some (ec :: body, rest)
  | c :: tail =>
    if c.toNat < 32 then none
    else do
      let (body, rest) ← parseStrChars tail
      some (c :: body, rest)

/-- Parse a JSON number, returning its lexeme and the remainder. -/
def parseNumber (cs : List Char) : Option (String × List Char) :=
  let (sign, cs1) :=
    match cs with
    | '-' :: r => (['-'], r)
    | _ => ([], cs)
  let intDs := cs1.takeWhile Char.isDigit
  let cs2 := cs1.drop intDs.length
  if intDs = [] then none
  else if 1 < intDs.length && intDs.head? = some '0' then none
  else
    let (fracDs, cs3) :=
      match cs2 with
      | '.' :: r =>
        let fs := r.takeWhile Char.isDigit
        if fs = [] then (([] : List Char), cs2)
        else ('.' :: fs, r.drop fs.length)
      | _ => ([], cs2)
    let (expDs, cs4) :=
      match cs3 with
      | e :: r =>
        if e = 'e' || e = 'E' then
          let (sgn, r2) :=
            match r with
            | s :: r3 => if s = '+' || s = '-' then ([s], r3) else (([] : List Char), r)
            | [] => ([], r)
          let xs := r2.takeWhile Char.isDigit
          if xs = [] then (([] : List Char), cs3)
          else (e :: (sgn ++ xs), r2.drop xs.length)
        else ([], cs3)
      | [] => ([], cs3)
    some (String.mk (sign ++ intDs ++ fracDs ++ expDs), cs4)

mutual

/-- Parse one JSON value (fuel-indexed recursive descent). -/
def parseValue : Nat → List Char → Option (Json × List Char)
  | 0, _ => none
  | fuel + 1, cs =>
    match skipWs cs with
    | 'n' :: 'u' :: 'l' :: 'l' :: r => some (.null, r)
    | 't' :: 'r' :: 'u' :: 'e' :: r => some (.bool true, r)
    | 'f' :: 'a' :: 'l' :: 's' :: 'e' :: r => some (.bool false, r)
    | '"' :: r => (parseStrChars r).map fun sr => (.str (String.mk sr.1), sr.2)
    | '[' :: r =>
      (match skipWs r with
       | ']' :: r2 => some (.arr [], r2)
       | r2 => (parseElems fuel r2).map fun er => (.arr er.1, er.2))
    | '\x7b' :: r =>
      (match skipWs r with
       | '\x7d' :: r2 => some (.obj [], r2)
       | r2 => (parseMembers fuel r2).map fun mr => (.obj mr.1, mr.2))
    | cs2 => (parseNumber cs2).map fun nr => (.num nr.1, nr.2)

/-- Parse the elements of a non-empty JSON array, up to and including `]`. -/
def parseElems : Nat → List Char → Option (List Json × List Char)
  | 0, _ => none
  | fuel + 1, cs => do
    let (v, r) ← parseValue fuel cs
    match skipWs r with
    | ',' :: r2 => do
      let (xs, rest) ← parseElems fuel r2
      some (v :: xs, rest)
    | ']' :: r2 => some ([v], r2)
    | _ => none

/-- Parse the members of a non-empty JSON object, up to and including the
closing brace. -/
def parseMembers : Nat → List Char → Option (List (String × Json) × List Char)
  | 0, _ => none
  | fuel + 1, cs =>
    match skipWs cs with
    | '"' :: r => do
      let (k, r2) ← parseStrChars r
      match skipWs r2 with
      | ':' :: r3 => do
        let (v, r4) ← parseValue fuel r3
        match skipWs r4 with
        | ',' :: r5 => do
          let (ms, rest) ← parseMembers fuel r5
          some ((String.mk k, v) :: ms, rest)
        | '\x7d' :: r5 => some ([(String.mk k, v)], r5)
        | _ => none
      | _ => none
    | _ => none

end

/-- The JavaScript builtin `JSON.parse`: `some` on valid JSON documents,
`none` where `JSON.parse` throws. -/
def parseJson (s : String) : Option Json :=
  match parseValue (2 * s.length + 2) s.data with
  | some (v, rest) => if skipWs rest = [] then some v else none
  | none => none

/-- JavaScript optional member access `j?.k`: the field of an object,
`none` (undefined) on a missing field or a non-object. -/
def jsField (j : Json) (k : String) : Option Json :=
  match j with
  | .obj fields => (fields.find? fun kv => kv.1 == k).map fun kv => kv.2
  | _ => none

/-- Collapse JavaScript `null` into `none`, as the nullish-coalescing
operator treats `null` and `undefined` values alike. -/
def jsNonNull : Option Json → Option Json
  | some .null => none
  | some v => some v
  | none => none

namespace Api

/-- Message roles accepted by the API route (`type ChatMessage` in
`app/api/chat/route.ts`). -/
inductive Role where
  | system : Role
  | user : Role
  | assistant : Role
deriving DecidableEq, Repr

/-- A message of the conversation as received by the API route. -/
structure ChatMessage where
  role : Role
  content : String
deriving DecidableEq, Repr

/-- The `KOA_SYSTEM_PROMPT` template literal (persona and guardrails).
Transcribed with the intended characters in place of the source file's
mojibake; its content is opaque to every property below. -/
def KOA_SYSTEM_PROMPT : String :=
  "\nYou are Koa 🐨, a gentle, friendly micro-mindfulness buddy.\n" ++
  "Users are usually students or early-career professionals who are stressed, tired, or overwhelmed.\n" ++
  "\nCore rules:\n" ++
  "- Tone: warm, cozy, calm, non-judgmental, simple language.\n" ++
  "- Give **1–2 minute micro-practices** only (breathing, grounding, short body scan, tiny reflections).\n" ++
  "- Never diagnose, label, or claim to treat mental-health conditions.\n" ++
  "- Do NOT talk like a therapist; you are a supportive buddy.\n" ++
  "- Always be encouraging and normalize what the user is feeling.\n" ++
  "- If the user sounds very distressed, hopeless, or mentions self-harm:\n" ++
  "  - Gently say you’re an AI buddy and not a crisis service.\n" ++
  "  - Encourage them to reach out to a trusted person or local professional/helpline.\n" ++
  "\nUse the knowledge snippets you receive as your main source for practices.\n" ++
  "When you reply:\n" ++
  "1. Start with 1–2 warm validating sentences.\n" ++
  "2. Offer **one** concrete micro-practice that fits their mood/energy/context.\n" ++
  "3. Describe steps clearly and briefly (3–6 bullet points max).\n" ++
  "4. End with a tiny follow-up question like:\n" ++
  "   “Want another option?” or “Want something even shorter?”\n"

/-- The trailing system message demanding an exact JSON response shape. -/
def formatInstruction : String :=
  "\nRespond ONLY as a JSON object with this exact shape:\n" ++
  "\n\x7b\n" ++
  "  \"reply\": \"short warm message Koa says to the user (max ~120 words)\",\n" ++
  "  \"miniPractice\": \x7b\n" ++
  "    \"title\": \"name of the practice\",\n" ++
  "    \"moodTags\": [\"stressed\", \"anxious\", \"tired\", \"overwhelmed\", \"sad\", \"numb\"],\n" ++
  "    \"energyLevel\": \"low | medium | high\",\n" ++
  "    \"environment\": \"at_desk | commute | bedtime | flexible\",\n" ++
  "    \"duration\": \"1–2 mins\",\n" ++
  "    \"steps\": [\n" ++
  "      \"step 1 in simple language\",\n" ++
  "      \"step 2 ...\",\n" ++
  "      \"step 3 ...\"\n" ++
  "    ],\n" ++
  "    \"note\": \"optional 1–2 line gentle reminder or reframe\"\n" ++
  "  \x7d\n\x7d\n" ++
  "\nDo not include any extra text outside this JSON.\n"

/-- Fixed prefix of the system message that carries the retrieved context. -/
def snippetsHeader : String :=
  "Here are knowledge base snippets you can draw practices from:\n\n"

/-- The fixed fallback notice used when retrieval yields no text. -/
def fallbackNotice : String :=
  "No specific snippet found; fall back to general micro-mindfulness advice."

/-- A record returned by the Pinecone search: its `values` object, as an
ordered list of field-name/value pairs (`rec.values || {}`). -/
structure PineRecord where
  values : List (String × Json)
deriving Repr

/-- Per record: all string-typed field values, in field order, joined by
newlines (`Object.values(values).filter(typeof string).join("\n")`). -/
def recordText (rec : PineRecord) : String :=
  String.intercalate "\n"
    ((rec.values.map fun kv => kv.2).filterMap fun v =>
      match v with
      | .str s => some s
      | _ => none)

/-- The record separator `"\n\n---\n\n"` of the context block. -/
def recordSep : String := "\n\n---\n\n"

/-- `contextText`: the per-record texts, with falsy (empty) entries dropped,
joined by the record separator. -/
def contextText (records : List PineRecord) : String :=
  String.intercalate recordSep
    ((records.map recordText).filter fun s => s != "")

/-- `contextForModel`: `contextText || fallbackNotice` (the empty string is
falsy in JavaScript). -/
def contextForModel (records : List PineRecord) : String :=
  if contextText records = "" then fallbackNotice else contextText records

/-- The message list sent to the completion API: persona, context, the full
conversation history, then the output-format instruction. -/
def promptMessages (contextBlock : String) (messages : List ChatMessage) :
    List ChatMessage :=
  [⟨.system, KOA_SYSTEM_PROMPT⟩, ⟨.system, snippetsHeader ++ contextBlock⟩] ++
  messages ++ [⟨.system, formatInstruction⟩]

/-- The external collaborators of the route, as injected dependencies:
the namespaced Pinecone search (given the query text) and the OpenAI chat
completion (given the prompt; `some`/`none` is the `content` of the first
choice, present or not).  `Except.error` models a thrown exception. -/
structure PipelineEnv where
  searchRecords : String → Except Unit (List PineRecord)
  createCompletion : List ChatMessage → Except Unit (Option String)

/-- Observable calls the route makes to its collaborators. -/
inductive CallEvent where
  | searchCall : String → CallEvent
  | genCall : List ChatMessage → CallEvent
deriving Repr

/-- An HTTP response produced via `NextResponse.json`: body and status. -/
inductive HttpResponse where
  | json : Json → Nat → HttpResponse
deriving Repr

/-- Body of the 400 response. -/
def noUserBody : Json := .obj [("error", .str "No user message provided.")]

/-- The fallback object substituted when `JSON.parse` on the completion
content throws (intended characters in place of the source mojibake). -/
def fallbackParsed : Json :=
  .obj [("reply", .str "Hmm, something went wrong while talking to my brain in the cloud. Could you try again in a moment? 🫧"),
        ("miniPractice", .null)]

/-- The apology object of the outer catch (500 path). -/
def apologyBody : Json :=
  .obj [("reply", .str "Hmm, something went wrong while talking to my brain in the cloud. Can you try again in a moment? 🫧"),
        ("miniPractice", .null)]

/-- `[...messages].reverse().find(m => m.role === "user")?.content || ""`:
the content of the chronologically last user-role message, or `""` when
there is none (on a string, `|| ""` only maps the empty string to itself). -/
def lastUserContent (messages : List ChatMessage) : String :=
  ((messages.reverse.find? fun m => m.role == Role.user).map
    fun m => m.content).getD ""

/-- `completion.choices[0].message?.content || "{}"`: missing or empty
completion content is replaced by the two-character default document. -/
def contentOrDefault : Option String → String
  | some s => if s = "" then "\x7b\x7d" else s
  | none => "\x7b\x7d"

/-- `JSON.parse(content)` with the local fallback of the inner try/catch. -/
def parseOrFallback (content : String) : Json :=
  match parseJson content with
  | some j => j
  | none => fallbackParsed

/-- The body of the `POST` handler inside its outer `try`, instrumented
with the list of collaborator calls it performs; `Except.error` propagates
a collaborator exception to the outer catch. -/
def POSTrun (env : PipelineEnv) (messages : List ChatMessage) :
    Except Unit HttpResponse × List CallEvent :=
  if lastUserContent messages = "" then
    (.ok (.json noUserBody 400), [])
  else
    match env.searchRecords (lastUserContent messages) with
    | .error e => (.error e, [.searchCall (lastUserContent messages)])
    | .ok records =>
      match env.createCompletion
          (promptMessages (contextForModel records) messages) with
      | .error e =>
        (.error e,
         [.searchCall (lastUserContent messages),
          .genCall (promptMessages (contextForModel records) messages)])
      | .ok contentOpt =>
        (.ok (.json (parseOrFallback (contentOrDefault contentOpt)) 200),
         [.searchCall (lastUserContent messages),
          .genCall (promptMessages (contextForModel records) messages)])

/-- The `POST` handler: the outer catch converts any thrown collaborator
error into the fixed apology with status 500. -/
def POST (env : PipelineEnv) (messages : List ChatMessage) :
    HttpResponse × List CallEvent :=
  match POSTrun env messages with
  | (.ok r, ev) => (r, ev)
  | (.error _, ev) => (.json apologyBody 500, ev)

end Api

/-- The JavaScript builtin `String.prototype.trim`, embedded executably
(kernel-reducible, unlike `String.trim`).  JavaScript strips the Unicode
whitespace and line-terminator classes; the common ASCII subset suffices
for every string handled here. -/
def isJsSpace (c : Char) : Bool :=
  c = ' ' || c = '\t' || c = '\n' || c = '\r' || c = '\x0b' || c = '\x0c'

/-- Strip leading and trailing JavaScript whitespace. -/
def jsTrim (s : String) : String :=
  String.mk (((s.data.dropWhile isJsSpace).reverse.dropWhile isJsSpace).reverse)

namespace Ui

/-- Message roles of the client (`type Role` in `app/page.tsx`). -/
inductive Role where
  | user : Role
  | assistant : Role
deriving DecidableEq, Repr

/-- A chat turn held by the client (`interface ChatMessage`).  The content
is kept as the JSON value the untyped assignment produces; plain strings
are embedded with `Json.str`. -/
structure ChatMessage where
  id : Nat
  role : Role
  content : Json
  withActivityCard : Bool
deriving Repr

/-- The component state the send interaction touches: the message list,
the input field, and the loading flag. -/
structure ClientState where
  messages : List ChatMessage
  input : String
  isLoading : Bool
deriving Repr

/-- Outcome of the `fetch` call as the client observes it: a network
error, or a response with its `ok` flag, status, and the result of
`res.json()` (`none` when that call throws). -/
inductive FetchResult where
  | networkError : FetchResult
  | response : Bool → Nat → Option Json → FetchResult
deriving Repr

/-- The generic placeholder of the nullish-coalescing chain. -/
def placeholderText : String := "Here’s a small practice you can try."

/-- `data?.message ?? data?.content ?? "Here’s a small practice you can
try."`: the value the client displays for an assistant turn. -/
def assistantTextOf (data : Json) : Json :=
  match jsNonNull (jsField data "message") with
  | some v => v
  | none =>
    match jsNonNull (jsField data "content") with
    | some v => v
    | none => .str placeholderText

/-- The fixed text of the client-side error turn. -/
def clientErrorText : String :=
  "Hmm, something went wrong while talking to my brain in the cloud. Can you try again in a moment? 💭"

/-- The optimistically appended user turn (`id: Date.now()`); the wall
clock is abstracted into the `now` argument. -/
def mkUserMsg (now : Nat) (trimmed : String) : ChatMessage :=
  ⟨now, .user, .str trimmed, false⟩

/-- The assistant turn appended on success (`id: Date.now() + 1`, with the
activity card). -/
def successTurn (now : Nat) (data : Json) : ChatMessage :=
  ⟨now + 1, .assistant, assistantTextOf data, true⟩

/-- The assistant turn appended by the catch block (`id: Date.now() + 2`). -/
def errorTurn (now : Nat) : ChatMessage :=
  ⟨now + 2, .assistant, .str clientErrorText, false⟩

/-- The request payload: the captured history mapped to role/content
pairs. -/
def payloadOf (st : ClientState) (text : String) (now : Nat) :
    List (Role × Json) :=
  (st.messages ++ [mkUserMsg now (jsTrim text)]).map fun m => (m.role, m.content)

/-- State after the optimistic phase of `sendMessage`: guard on empty
trimmed input or an in-flight request, then append the user turn, clear
the input, raise the loading flag. -/
def sendMessageMid (st : ClientState) (text : String) (now : Nat) :
    ClientState :=
  if jsTrim text = "" ∨ st.isLoading = true then st
  else ⟨st.messages ++ [mkUserMsg now (jsTrim text)], "", true⟩

/-- The assistant turn the rest of `sendMessage` appends: the returned
turn when the response is ok and its body parses, the error turn when the
fetch fails, `res.ok` is false (the thrown status error), or `res.json()`
throws. -/
def assistantOutcome (now : Nat) (r : FetchResult) : ChatMessage :=
  match r with
  | .networkError => errorTurn now
  | .response ok _ body =>
    if ok then
      match body with
      | some data => successTurn now data
      | none => errorTurn now
    else errorTurn now

/-- The complete `sendMessage` interaction, given the fetch behaviour of
the backend; the `finally` clause clears the loading flag on every path. -/
def sendMessage (st : ClientState) (text : String) (now : Nat)
    (fetch : List (Role × Json) → FetchResult) : ClientState :=
  if jsTrim text = "" ∨ st.isLoading = true then st
  else
    ⟨(st.messages ++ [mkUserMsg now (jsTrim text)]) ++
       [assistantOutcome now (fetch (payloadOf st text now))],
     "", false⟩

end Ui

/-- Modelled from the spec: the context block as §4.1 step 3 words it —
"concatenates all textual fields of each returned record in record order,
joined by blank-line separators; if nothing is retrieved, substitutes a
fixed fallback notice string" — i.e. without dropping records whose
textual contribution is empty.  Used only as the comparison point for the
refinement claim about the context block. -/
def specContextBlock (records : List Api.PineRecord) : String :=
  match records with
  | [] => Api.fallbackNotice
  | _ => String.intercalate Api.recordSep (records.map Api.recordText)

/-- Auxiliary: the accumulator never shrinks through `String.intercalate.go`. -/
theorem intercalate_go_length (s : String) (as : List String) :
    ∀ acc : String, acc.length ≤ (String.intercalate.go acc s as).length := by
  induction as with
  | nil => intro acc; simp [String.intercalate.go]
  | cons a as ih =>
    intro acc
    have h1 : acc.length ≤ (acc ++ s ++ a).length := by
      simp [String.length_append]
      omega
    calc acc.length ≤ (acc ++ s ++ a).length := h1
      _ ≤ (String.intercalate.go (acc ++ s ++ a) s as).length := ih (acc ++ s ++ a)
      _ = (String.intercalate.go acc s (a :: as)).length := by
          rw [String.intercalate.go]

/-- Auxiliary: joining a list headed by a non-empty string is non-empty. -/
theorem intercalate_cons_ne_empty (s p : String) (rest : List String)
    (hp : p ≠ "") : String.intercalate s (p :: rest) ≠ "" := by
  intro h
  have h1 : p.length ≤ (String.intercalate s (p :: rest)).length := by
    rw [String.intercalate]
    exact intercalate_go_length s rest p
  rw [h] at h1
  have h2 : p.data.length = 0 := Nat.le_zero.mp h1
  have h3 : p.data = [] := List.length_eq_zero.mp h2
  apply hp
  have h4 : p = ⟨[]⟩ := by
    cases p
    simp_all
  rw [h4]

/-- Auxiliary: a non-empty `lastUserContent` names the last user-role
message of the history (last in sequence order). -/
theorem lastUserContent_spec (msgs : List Api.ChatMessage)
    (h : Api.lastUserContent msgs ≠ "") :
    ∃ m, (msgs.filter fun x => x.role == Api.Role.user).getLast? = some m
      ∧ Api.lastUserContent msgs = m.content := by
  unfold Api.lastUserContent at h ⊢
  cases hf : msgs.reverse.find? (fun m => m.role == Api.Role.user) with
  | none => rw [hf] at h; simp at h
  | some m =>
    refine ⟨m, ?_, ?_⟩
    · rw [List.filter_getLast?]
      exact hf
    · simp

/-- Auxiliary: every search event the route emits carries the last user
message's content as its query. -/
theorem searchCall_query_eq (env : Api.PipelineEnv)
    (msgs : List Api.ChatMessage) (q : String)
    (hq : Api.CallEvent.searchCall q ∈ (Api.POST env msgs).2) :
    q = Api.lastUserContent msgs := by
  unfold Api.POST Api.POSTrun at hq
  by_cases h : Api.lastUserContent msgs = ""
  · rw [if_pos h] at hq
    simp at hq
  · rw [if_neg h] at hq
    generalize env.searchRecords (Api.lastUserContent msgs) = sr at hq
    cases sr with
    | error e => simp at hq; exact hq
    | ok recs =>
      simp only [] at hq
      generalize env.createCompletion
          (Api.promptMessages (Api.contextForModel recs) msgs) = gc at hq
      cases gc with
      | error e => simp at hq; exact hq
      | ok c => simp at hq; exact hq

/-- A search stub returning a fixed record list and a generation stub with
a fixed completion: deterministic collaborators for concrete runs. -/
def stubEnv (recs : List Api.PineRecord) (gen : Except Unit (Option String)) :
    Api.PipelineEnv :=
  ⟨fun _ => .ok recs, fun _ => gen⟩

/-- Collaborators whose search succeeds with no records and whose
completion has no content. -/
def anyEnv : Api.PipelineEnv := stubEnv [] (.ok none)

/-- Collaborators whose search call throws. -/
def failSearchEnv : Api.PipelineEnv := ⟨fun _ => .error (), fun _ => .ok none⟩

/-- Collaborators whose completion is the non-JSON text `"nope"`. -/
def badJsonEnv : Api.PipelineEnv := stubEnv [] (.ok (some "nope"))

/-- Collaborators whose completion is the empty string. -/
def emptyGenEnv : Api.PipelineEnv := stubEnv [] (.ok (some ""))

/-- A one-message history with user content `"hi"`. -/
def msgsHi : List Api.ChatMessage := [⟨.user, "hi"⟩]

/-- A record whose only textual field is empty. -/
def recEmptyText : Api.PineRecord := ⟨[("text", .str "")]⟩

/-- A record whose only textual field is `"hello"`. -/
def recHello : Api.PineRecord := ⟨[("text", .str "hello")]⟩

/-- C1: on a 200 response whose JSON body has the backend's shape
`(reply, miniPractice)` and carries no `message` or `content` field, the
assistant turn the client appends has the generic placeholder string as
its content (the nullish chain `data?.message ?? data?.content ?? ...`
falls through both lookups), not the backend's reply text. -/
theorem client_placeholder_on_reply_shape
    (st : Ui.ClientState) (text : String) (now : Nat) (body r mp : Json)
    (htrim : jsTrim text ≠ "") (hload : st.isLoading = false)
    (hmsg : jsField body "message" = none)
    (hcont : jsField body "content" = none)
    (_hreply : jsField body "reply" = some r)
    (_hmp : jsField body "miniPractice" = some mp) :
    (Ui.sendMessage st text now
        (fun _ => .response true 200 (some body))).messages
      = st.messages ++ [Ui.mkUserMsg now (jsTrim text), Ui.successTurn now body]
    ∧ (Ui.successTurn now body).content = .str Ui.placeholderText := by
  constructor
  · rw [Ui.sendMessage, if_neg (by simp [htrim, hload])]
    simp [Ui.assistantOutcome]
  · simp [Ui.successTurn, Ui.assistantTextOf, hmsg, hcont, jsNonNull]

/-- Witness for C1 at a concrete state and body. -/
theorem client_placeholder_on_reply_shape_witness :
    (Ui.sendMessage ⟨[], "", false⟩ "hi" 7
        (fun _ => .response true 200
          (some (.obj [("reply", .str "hello"), ("miniPractice", .null)])))).messages
      = [Ui.mkUserMsg 7 "hi",
         Ui.successTurn 7 (.obj [("reply", .str "hello"), ("miniPractice", .null)])]
    ∧ (Ui.successTurn 7
        (.obj [("reply", .str "hello"), ("miniPractice", .null)])).content
      = .str Ui.placeholderText := by
  have h := client_placeholder_on_reply_shape ⟨[], "", false⟩ "hi" 7
    (.obj [("reply", .str "hello"), ("miniPractice", .null)]) (.str "hello") .null
    (by decide) rfl rfl rfl rfl rfl
  have e : jsTrim "hi" = "hi" := rfl
  rw [e] at h
  simpa using h

/-- C2 counterexample: a history whose only message has role user with
empty content contains a user-role message, yet the route answers 400 and
calls no collaborator, because the truthiness check is on the last user
message's content, not on the existence of a user-role message. -/
theorem post400_despite_user_message :
    (∃ m ∈ ([⟨.user, ""⟩] : List Api.ChatMessage), m.role = Api.Role.user)
    ∧ Api.POST anyEnv [⟨.user, ""⟩] = (.json Api.noUserBody 400, []) := by
  exact ⟨⟨⟨.user, ""⟩, by simp, rfl⟩, rfl⟩

/-- C2 amended: the route answers 400 with the fixed error body, making
no collaborator call (in particular never the generation service), iff
the last user-role message's content is absent or empty; otherwise it
proceeds past the 400 check into the knowledge-store search. -/
theorem post400_iff_no_nonempty_last_user (env : Api.PipelineEnv)
    (msgs : List Api.ChatMessage) :
    (Api.lastUserContent msgs = "" →
      Api.POST env msgs = (.json Api.noUserBody 400, []))
    ∧ (Api.lastUserContent msgs ≠ "" →
      (Api.POST env msgs).1 ≠ .json Api.noUserBody 400
      ∧ Api.CallEvent.searchCall (Api.lastUserContent msgs)
          ∈ (Api.POST env msgs).2) := by
  constructor
  · intro h
    unfold Api.POST Api.POSTrun
    rw [if_pos h]
  · intro h
    unfold Api.POST Api.POSTrun
    rw [if_neg h]
    cases env.searchRecords (Api.lastUserContent msgs) with
    | error e => exact ⟨by simp, by simp⟩
    | ok recs =>
      simp only []
      cases env.createCompletion
          (Api.promptMessages (Api.contextForModel recs) msgs) with
      | error e => exact ⟨by simp, by simp⟩
      | ok c => exact ⟨by simp, by simp⟩

/-- Witness for C2 amended on both sides of the iff. -/
theorem post400_iff_no_nonempty_last_user_witness :
    Api.POST anyEnv [⟨.user, ""⟩] = (.json Api.noUserBody 400, [])
    ∧ Api.CallEvent.searchCall "hi" ∈ (Api.POST anyEnv msgsHi).2 := by
  refine ⟨(post400_iff_no_nonempty_last_user anyEnv [⟨.user, ""⟩]).1 rfl, ?_⟩
  have h := (post400_iff_no_nonempty_last_user anyEnv msgsHi).2 (by decide)
  exact h.2

/-- C3: for any history containing a user-role message, every query the
route sends to the knowledge store is the content of the chronologically
last user-role message (the last element of the user-role sublist in
sequence order). -/
theorem search_query_is_last_user_message (env : Api.PipelineEnv)
    (msgs : List Api.ChatMessage)
    (_huser : ∃ m ∈ msgs, m.role = Api.Role.user) :
    ∀ q, Api.CallEvent.searchCall q ∈ (Api.POST env msgs).2 →
      ∃ last, (msgs.filter fun m => m.role == Api.Role.user).getLast? = some last
        ∧ q = last.content := by
  intro q hq
  have hlast : q = Api.lastUserContent msgs := searchCall_query_eq env msgs q hq
  have hne : Api.lastUserContent msgs ≠ "" := by
    intro hz
    rw [hz] at hlast
    subst hlast
    unfold Api.POST Api.POSTrun at hq
    rw [if_pos hz] at hq
    simp at hq
  obtain ⟨m, hm, hcontent⟩ := lastUserContent_spec msgs hne
  exact ⟨m, hm, by rw [hlast, hcontent]⟩

/-- Witness for C3 on a three-message history whose last user message is
the third one. -/
theorem search_query_is_last_user_message_witness :
    (∃ m ∈ ([⟨.user, "first"⟩, ⟨.assistant, "mid"⟩, ⟨.user, "second"⟩] :
        List Api.ChatMessage), m.role = Api.Role.user)
    ∧ ∀ q, Api.CallEvent.searchCall q
          ∈ (Api.POST anyEnv [⟨.user, "first"⟩, ⟨.assistant, "mid"⟩, ⟨.user, "second"⟩]).2 →
        ∃ last, (([⟨.user, "first"⟩, ⟨.assistant, "mid"⟩, ⟨.user, "second"⟩] :
              List Api.ChatMessage).filter fun m => m.role == Api.Role.user).getLast?
            = some last ∧ q = last.content := by
  refine ⟨⟨⟨.user, "first"⟩, by simp, rfl⟩, ?_⟩
  exact search_query_is_last_user_message anyEnv
    [⟨.user, "first"⟩, ⟨.assistant, "mid"⟩, ⟨.user, "second"⟩]
    ⟨⟨.user, "first"⟩, by simp, rfl⟩

/-- C4 counterexample: with a first record contributing only an empty
textual field and a second contributing `"hello"`, the code's context
block drops the falsy first contribution (`filter(Boolean)`), while the
spec's "all textual fields of each returned record, joined by
separators" keeps an empty component; the two differ. -/
theorem contextBlock_spec_mismatch :
    Api.contextForModel [recEmptyText, recHello] = "hello"
    ∧ specContextBlock [recEmptyText, recHello] = "\n\n---\n\nhello"
    ∧ Api.contextForModel [recEmptyText, recHello]
        ≠ specContextBlock [recEmptyText, recHello]
    ∧ (Api.POST (stubEnv [recEmptyText, recHello] (.ok none)) msgsHi).2
        = [.searchCall "hi", .genCall (Api.promptMessages "hello" msgsHi)] := by
  refine ⟨rfl, rfl, by decide, rfl⟩

/-- C4 amended: the context block passed to generation is the join, by
the record separator, of the per-record textual concatenations after
records with empty textual contribution are dropped; it equals the fixed
fallback notice exactly when no record contributes non-empty text — in
particular when the store returns zero records. -/
theorem contextBlock_amended (records : List Api.PineRecord) :
    (Api.contextForModel records =
      (match (records.map Api.recordText).filter (fun s => s != "") with
       | [] => Api.fallbackNotice
       | parts => String.intercalate Api.recordSep parts))
    ∧ (records = [] → Api.contextForModel records = Api.fallbackNotice) := by
  constructor
  · unfold Api.contextForModel Api.contextText
    cases hp : (records.map Api.recordText).filter (fun s => s != "") with
    | nil => rfl
    | cons p rest =>
      have hmem : p ∈ (records.map Api.recordText).filter (fun s => s != "") := by
        rw [hp]
        exact List.mem_cons_self p rest
      have hpne : p ≠ "" := by
        have := List.of_mem_filter hmem
        simpa using this
      rw [if_neg (intercalate_cons_ne_empty Api.recordSep p rest hpne)]
  · intro h
    subst h
    rfl

/-- Witness for C4 amended at the empty record list. -/
theorem contextBlock_amended_witness :
    Api.contextForModel [] = Api.fallbackNotice :=
  (contextBlock_amended []).2 rfl

/-- C5 counterexample: the empty string fails JSON parsing, yet when the
generation service returns it the route answers 200 with the empty
object, not the fixed fallback object: `content || "{}"` replaces the
empty (falsy) text before `JSON.parse` runs. -/
theorem emptyCompletion_not_fallback :
    parseJson "" = none
    ∧ (Api.POST emptyGenEnv msgsHi).1 = .json (.obj []) 200
    ∧ (Api.POST emptyGenEnv msgsHi).1 ≠ .json Api.fallbackParsed 200 := by
  refine ⟨rfl, rfl, ?_⟩
  have hv : (Api.POST emptyGenEnv msgsHi).1 = .json (.obj []) 200 := rfl
  rw [hv]
  intro h
  injection h with h1 h2
  simp [Api.fallbackParsed] at h1

/-- C5 amended: when the generation service returns non-empty text that
fails JSON parsing, the route answers 200 with the fixed fallback object
(local recovery, never an error status); empty or missing completion
text is instead replaced by the default document and handled as such. -/
theorem parseFailure_yields_fallback_200 (env : Api.PipelineEnv)
    (msgs : List Api.ChatMessage) (recs : List Api.PineRecord) (s : String)
    (hq : Api.lastUserContent msgs ≠ "")
    (hsearch : env.searchRecords (Api.lastUserContent msgs) = .ok recs)
    (hgen : env.createCompletion
        (Api.promptMessages (Api.contextForModel recs) msgs) = .ok (some s))
    (hne : s ≠ "") (hparse : parseJson s = none) :
    (Api.POST env msgs).1 = .json Api.fallbackParsed 200 := by
  unfold Api.POST Api.POSTrun
  rw [if_neg hq, hsearch]
  simp only []
  rw [hgen]
  simp [Api.contentOrDefault, Api.parseOrFallback, hne, hparse]

/-- Witness for C5 amended with the non-JSON completion text `"nope"`. -/
theorem parseFailure_yields_fallback_200_witness :
    (Api.POST badJsonEnv msgsHi).1 = .json Api.fallbackParsed 200 :=
  parseFailure_yields_fallback_200 badJsonEnv msgsHi [] "nope"
    (by decide) rfl rfl (by decide) rfl

/-- C6: whenever the knowledge-store search call or the generation call
throws, the route answers 500 with the fixed apology object. -/
theorem upstream_throw_yields_500_apology (env : Api.PipelineEnv)
    (msgs : List Api.ChatMessage)
    (hq : Api.lastUserContent msgs ≠ "")
    (h : env.searchRecords (Api.lastUserContent msgs) = .error ()
      ∨ ∃ recs, env.searchRecords (Api.lastUserContent msgs) = .ok recs
          ∧ env.createCompletion
              (Api.promptMessages (Api.contextForModel recs) msgs) = .error ()) :
    (Api.POST env msgs).1 = .json Api.apologyBody 500 := by
  unfold Api.POST Api.POSTrun
  rw [if_neg hq]
  rcases h with h | ⟨recs, h1, h2⟩
  · rw [h]
  · rw [h1]
    simp only []
    rw [h2]

/-- Witness for C6 with a search stub that throws. -/
theorem upstream_throw_yields_500_apology_witness :
    (Api.POST failSearchEnv msgsHi).1 = .json Api.apologyBody 500 :=
  upstream_throw_yields_500_apology failSearchEnv msgsHi (by decide)
    (Or.inl rfl)

/-- C7: a submit with non-empty trimmed input while no request is in
flight first appends exactly one user turn and clears the input field
(the optimistic phase, with the loading flag raised), and afterwards
appends exactly one assistant turn — the returned one when the response
is ok and parses, the fixed-text error turn on a network error or a
non-ok status — with the loading flag false at the end on every path. -/
theorem sendMessage_interaction (st : Ui.ClientState) (text : String)
    (now : Nat) (fetch : List (Ui.Role × Json) → Ui.FetchResult)
    (htrim : jsTrim text ≠ "") (hload : st.isLoading = false) :
    (Ui.sendMessageMid st text now).messages
        = st.messages ++ [Ui.mkUserMsg now (jsTrim text)]
    ∧ (Ui.sendMessageMid st text now).input = ""
    ∧ (Ui.sendMessageMid st text now).isLoading = true
    ∧ (Ui.sendMessage st text now fetch).messages
        = st.messages ++ [Ui.mkUserMsg now (jsTrim text),
            Ui.assistantOutcome now (fetch (Ui.payloadOf st text now))]
    ∧ (Ui.assistantOutcome now (fetch (Ui.payloadOf st text now))).role
        = Ui.Role.assistant
    ∧ (Ui.sendMessage st text now fetch).isLoading = false
    ∧ (Ui.sendMessage st text now fetch).input = ""
    ∧ (∀ status data,
        fetch (Ui.payloadOf st text now) = .response true status (some data) →
        Ui.assistantOutcome now (fetch (Ui.payloadOf st text now))
          = Ui.successTurn now data)
    ∧ (fetch (Ui.payloadOf st text now) = .networkError →
        (Ui.assistantOutcome now (fetch (Ui.payloadOf st text now))).content
          = .str Ui.clientErrorText)
    ∧ (∀ status body,
        fetch (Ui.payloadOf st text now) = .response false status body →
        (Ui.assistantOutcome now (fetch (Ui.payloadOf st text now))).content
          = .str Ui.clientErrorText) := by
  have hcond : ¬(jsTrim text = "" ∨ st.isLoading = true) := by
    simp [htrim, hload]
  refine ⟨?_, ?_, ?_, ?_, ?_, ?_, ?_, ?_, ?_, ?_⟩
  · rw [Ui.sendMessageMid, if_neg hcond]
  · rw [Ui.sendMessageMid, if_neg hcond]
  · rw [Ui.sendMessageMid, if_neg hcond]
  · rw [Ui.sendMessage, if_neg hcond]
    simp
  · cases hf : fetch (Ui.payloadOf st text now) with
    | networkError => simp [Ui.assistantOutcome, Ui.errorTurn]
    | response ok status body =>
      cases ok with
      | false => simp [Ui.assistantOutcome, Ui.errorTurn]
      | true =>
        cases body with
        | none => simp [Ui.assistantOutcome, Ui.errorTurn]
        | some data => simp [Ui.assistantOutcome, Ui.successTurn]
  · rw [Ui.sendMessage, if_neg hcond]
  · rw [Ui.sendMessage, if_neg hcond]
  · intro status data hf
    rw [hf]
    rfl
  · intro hf
    rw [hf]
    rfl
  · intro status body hf
    rw [hf]
    cases body with
    | none => rfl
    | some data => rfl

/-- Witness for C7 at a concrete state with a failing network. -/
theorem sendMessage_interaction_witness :
    (Ui.sendMessage ⟨[], "", false⟩ " hi " 5 (fun _ => .networkError)).messages
        = [Ui.mkUserMsg 5 "hi", Ui.errorTurn 5]
    ∧ (Ui.sendMessage ⟨[], "", false⟩ " hi " 5 (fun _ => .networkError)).isLoading
        = false := by
  have h := sendMessage_interaction ⟨[], "", false⟩ " hi " 5
    (fun _ => .networkError) (by decide) rfl
  have e : jsTrim " hi " = "hi" := rfl
  rw [e] at h
  exact ⟨by rw [h.2.2.2.1]; rfl, h.2.2.2.2.2.1⟩

/-- C8: the client history is append-only — the optimistic phase and the
complete interaction each extend the previous message list at its end
(the previous elements reappear unchanged as the prefix), on every path
including the guard rejection. -/
theorem history_append_only (st : Ui.ClientState) (text : String)
    (now : Nat) (fetch : List (Ui.Role × Json) → Ui.FetchResult) :
    (∃ tl, (Ui.sendMessageMid st text now).messages = st.messages ++ tl)
    ∧ (∃ tl, (Ui.sendMessage st text now fetch).messages = st.messages ++ tl)
    ∧ (∃ tl, (Ui.sendMessage st text now fetch).messages
        = (Ui.sendMessageMid st text now).messages ++ tl) := by
  by_cases h : jsTrim text = "" ∨ st.isLoading = true
  · refine ⟨⟨[], ?_⟩, ⟨[], ?_⟩, ⟨[], ?_⟩⟩ <;>
      simp [Ui.sendMessage, Ui.sendMessageMid, h]
  · refine ⟨⟨[Ui.mkUserMsg now (jsTrim text)], ?_⟩,
      ⟨[Ui.mkUserMsg now (jsTrim text),
        Ui.assistantOutcome now (fetch (Ui.payloadOf st text now))], ?_⟩,
      ⟨[Ui.assistantOutcome now (fetch (Ui.payloadOf st text now))], ?_⟩⟩ <;>
      simp [Ui.sendMessage, Ui.sendMessageMid, h]

/-- C9: with deterministic (stubbed) collaborators the pipeline is
deterministic — equal environments and equal histories produce equal
responses and call traces.  In this functional embedding the property is
definitional: `Api.POST` is a function of its inputs alone. -/
theorem pipeline_deterministic (env1 env2 : Api.PipelineEnv)
    (msgs1 msgs2 : List Api.ChatMessage)
    (henv : env1 = env2) (hmsgs : msgs1 = msgs2) :
    Api.POST env1 msgs1 = Api.POST env2 msgs2 := by
  rw [henv, hmsgs]

/-- Witness for C9: two identical invocations against a stubbed
environment coincide. -/
theorem pipeline_deterministic_witness :
    Api.POST anyEnv msgsHi = Api.POST anyEnv msgsHi :=
  pipeline_deterministic anyEnv anyEnv msgsHi msgsHi rfl rfl

/-- C10: a missing or empty completion content is replaced by the default
text, which parses to the empty object, so the route answers 200 with
body the empty JSON object — not the apologetic fallback, and with no
reply or miniPractice field; more generally any JSON-parseable completion
content becomes the response body verbatim, with no schema validation. -/
theorem completion_body_passthrough (env : Api.PipelineEnv)
    (msgs : List Api.ChatMessage) (recs : List Api.PineRecord)
    (hq : Api.lastUserContent msgs ≠ "")
    (hsearch : env.searchRecords (Api.lastUserContent msgs) = .ok recs) :
    ((env.createCompletion (Api.promptMessages (Api.contextForModel recs) msgs)
          = .ok none
        ∨ env.createCompletion (Api.promptMessages (Api.contextForModel recs) msgs)
          = .ok (some "")) →
      (Api.POST env msgs).1 = .json (.obj []) 200)
    ∧ (∀ s j, env.createCompletion
          (Api.promptMessages (Api.contextForModel recs) msgs) = .ok (some s) →
        parseJson s = some j → (Api.POST env msgs).1 = .json j 200)
    ∧ jsField (.obj []) "reply" = none
    ∧ jsField (.obj []) "miniPractice" = none
    ∧ Json.obj [] ≠ Api.fallbackParsed := by
  refine ⟨?_, ?_, rfl, rfl, by simp [Api.fallbackParsed]⟩
  · intro hgen
    unfold Api.POST Api.POSTrun
    rw [if_neg hq, hsearch]
    simp only []
    rcases hgen with hgen | hgen <;> rw [hgen] <;> rfl
  · intro s j hgen hparse
    unfold Api.POST Api.POSTrun
    rw [if_neg hq, hsearch]
    simp only []
    rw [hgen]
    by_cases hs : s = ""
    · subst hs
      rw [show parseJson "" = none from rfl] at hparse
      exact absurd hparse (by simp)
    · simp [Api.contentOrDefault, Api.parseOrFallback, hs, hparse]

/-- Witness for C10 with a completion that has no content. -/
theorem completion_body_passthrough_witness :
    (Api.POST anyEnv msgsHi).1 = .json (.obj []) 200 :=
  (completion_body_passthrough anyEnv msgsHi [] (by decide) rfl).1 (Or.inl rfl)
